import Mathlib

/-!
Shallow embedding of the trust-and-revocation evaluation engine of
`cmd/ctl/pkg/inspect/secret/secret.go` (cert-manager inspect-secret tool).

The embedded functions are `describeCRL`, `describeOCSP`, `describeTrusted`
and `describeDebugging`.  External collaborators that live outside this file
(URL parsing from `net/url`, the CRL fetch `checkCRLValidCert`, the OCSP
exchange `checkOCSPValidCert`, certificate decoding
`pki.DecodeX509CertificateBytes`, PEM appending `AppendCertsFromPEM`, chain
verification `x509.Certificate.Verify`, the system store `x509.SystemCertPool`
and the process clock) are injected as explicit function parameters, so every
theorem quantifies over their behaviour.  The Go functions return formatted
strings; each outcome string is represented by one constructor of a result
type, with a rendering function giving the exact Go string.
-/

set_option autoImplicit false

namespace InspectSecret

/-- A byte slice (`[]byte` in Go), as a list of byte values. -/
abbrev Bytes := List Nat

/-- The fields of a decoded `x509.Certificate` that the engine reads. -/
structure Certificate where
  serialNumber : Nat
  crlDistributionPoints : List String
  isCA : Bool
deriving DecidableEq, Repr

/-- The field of a parsed `url.URL` that `describeCRL` reads. -/
structure GoURL where
  scheme : String
deriving DecidableEq, Repr

/-- Outcomes of `describeCRL`, one constructor per result string of the Go
function (see `renderCRLStatus`). -/
inductive CRLStatus where
  | noEndpoints
  | cannotCheck (err : String)
  | revokedBy (url : String)
  | noSupported
  | valid
deriving DecidableEq, Repr

/-- The exact strings `describeCRL` returns in Go. -/
def renderCRLStatus : CRLStatus → String
  | .noEndpoints => "No CRL endpoints set"
  | .cannotCheck e => "Cannot check CRL: " ++ e
  | .revokedBy u => "Revoked by " ++ u
  | .noSupported => "No CRL endpoints we support found"
  | .valid => "Valid"

/-- Whether `describeCRL` accepts a distribution-point URL: it must parse and
its scheme must be `ldap` or `https` (lines 266-272 of the source). -/
def crlSupported (parse : String → Option GoURL) (crlURL : String) : Bool :=
  match parse crlURL with
  | none => false
  | some u => u.scheme == "ldap" || u.scheme == "https"

/-- The loop of `describeCRL` (lines 264-288), instrumented: the second
component records the URLs on which the fetch `checkCRLValidCert` was invoked,
in order.  `check cert crlURL` is the injected fetch-and-scan: `.ok true` means
the CRL was retrieved and the leaf serial is absent, `.ok false` means the
serial was found, `.error e` is a fetch or parse failure. -/
def describeCRLLoop (parse : String → Option GoURL)
    (check : Certificate → String → Except String Bool) (cert : Certificate) :
    List String → Bool → CRLStatus × List String
  | [], hasChecked => (if !hasChecked then .noSupported else .valid, [])
  | crlURL :: rest, hasChecked =>
    match parse crlURL with
    | none => describeCRLLoop parse check cert rest hasChecked
    | some u =>
      if u.scheme != "ldap" && u.scheme != "https" then
        describeCRLLoop parse check cert rest hasChecked
      else
        match check cert crlURL with
        | .error e => (.cannotCheck e, [crlURL])
        | .ok valid =>
          if !valid then (.revokedBy crlURL, [crlURL])
          else
            let r := describeCRLLoop parse check cert rest true
            (r.1, crlURL :: r.2)

/-- `describeCRL` (lines 259-289 of the source). -/
def describeCRL (parse : String → Option GoURL)
    (check : Certificate → String → Except String Bool)
    (cert : Certificate) : CRLStatus :=
  if cert.crlDistributionPoints.length < 1 then .noEndpoints
  else (describeCRLLoop parse check cert cert.crlDistributionPoints false).1

/-- The URLs `describeCRL` actually fetches a CRL from, in order. -/
def crlFetches (parse : String → Option GoURL)
    (check : Certificate → String → Except String Bool)
    (cert : Certificate) : List String :=
  if cert.crlDistributionPoints.length < 1 then []
  else (describeCRLLoop parse check cert cert.crlDistributionPoints false).2

/-- Outcomes of `describeOCSP` (lines 291-313), one constructor per result
string of the Go function (see `renderOCSPStatus`). -/
inductive OCSPStatus where
  | noIssuer
  | cannotParseIssuer (err : String)
  | cannotCheck (err : String)
  | revoked
  | valid
deriving DecidableEq, Repr

/-- The exact strings `describeOCSP` returns in Go. -/
def renderOCSPStatus : OCSPStatus → String
  | .noIssuer => "Cannot check OCSP, does not have a CA or intermediate certificate provided"
  | .cannotParseIssuer e => "Cannot parse intermediate certificate: " ++ e
  | .cannotCheck e => "Cannot check OCSP: " ++ e
  | .revoked => "Marked as revoked"
  | .valid => "valid"

/-- Lines 292-294: when the supplied CA byte slice is longer than one byte it
is prepended to the intermediates; the resulting list is the issuer candidate
list. -/
def ocspCandidates (intermediates : List Bytes) (ca : Bytes) : List Bytes :=
  if ca.length > 1 then ca :: intermediates else intermediates

/-- The byte slice `describeOCSP` submits to certificate decoding, if any:
the Go code guards `len(intermediates) < 1` and then reads index
`len(intermediates)-1`, i.e. the last candidate. -/
def ocspIssuer (intermediates : List Bytes) (ca : Bytes) : Option Bytes :=
  (ocspCandidates intermediates ca).getLast?

/-- Trace of one `describeOCSP` run: the result, the byte slice submitted to
`pki.DecodeX509CertificateBytes` (if any), and whether the OCSP exchange
`checkOCSPValidCert` was performed. -/
structure OCSPTrace where
  status : OCSPStatus
  decodedIssuer : Option Bytes
  exchanged : Bool
deriving DecidableEq, Repr

/-- `describeOCSP` (lines 291-313 of the source).  `decode` is the injected
certificate decoder and `ocspCheck cert issuer` the injected OCSP exchange
(`.ok true` = good, `.ok false` = revoked, `.error e` = transport/parse
failure).  The `len < 1` guard plus last-index access of the Go code is
rendered as a match on `List.getLast?`. -/
def describeOCSP (decode : Bytes → Except String Certificate)
    (ocspCheck : Certificate → Certificate → Except String Bool)
    (cert : Certificate) (intermediates : List Bytes) (ca : Bytes) : OCSPTrace :=
  match ocspIssuer intermediates ca with
  | none => ⟨.noIssuer, none, false⟩
  | some issuerBytes =>
    match decode issuerBytes with
    | .error e => ⟨.cannotParseIssuer e, some issuerBytes, false⟩
    | .ok issuerCert =>
      match ocspCheck cert issuerCert with
      | .error e => ⟨.cannotCheck e, some issuerBytes, true⟩
      | .ok valid => ⟨if !valid then .revoked else .valid, some issuerBytes, true⟩

/-- Outcomes of `describeTrusted` (lines 315-331), one constructor per result
string (see `renderTrustStatus`). -/
inductive TrustStatus where
  | storeError (err : String)
  | yes
  | no (err : String)
deriving DecidableEq, Repr

/-- The exact strings `describeTrusted` returns in Go. -/
def renderTrustStatus : TrustStatus → String
  | .storeError e => "Error getting system CA store: " ++ e
  | .yes => "yes"
  | .no e => "no: " ++ e

/-- The shared, process-wide state `describeTrusted` can observe: the platform
trust store behind `x509.SystemCertPool`. -/
structure SysState where
  systemStore : List Certificate
deriving DecidableEq, Repr

/-- The fields of `x509.VerifyOptions` the source sets or leaves zero: the
root pool, the untrusted-intermediates pool (never set by the source, hence
empty), and the verification time. -/
structure VerifyOptions where
  roots : List Certificate
  intermediates : List Certificate
  currentTime : Nat
deriving DecidableEq, Repr

/-- The verification pool `describeTrusted` hands to `cert.Verify`
(lines 316-326): the copy of the system store returned by
`x509.SystemCertPool`, with the certificates parsed from each supplied
intermediate byte slice appended in order by `AppendCertsFromPEM`
(`appendPEM`); `Intermediates` is left empty and `CurrentTime` is the injected
clock value. -/
def trustedPoolUsed (appendPEM : Bytes → List Certificate) (now : Nat)
    (intermediates : List Bytes) (σ : SysState) : VerifyOptions :=
  { roots := intermediates.foldl (fun pool pem => pool ++ appendPEM pem) σ.systemStore,
    intermediates := [],
    currentTime := now }

/-- Following the spec wording of the Chain Builder contract, for comparison
with `trustedPoolUsed`: the system trust store plus the supplied CA (if
provided) as an extra trusted anchor, plus the supplied intermediates as
untrusted helper certificates. -/
def specVerificationPool (appendPEM : Bytes → List Certificate) (now : Nat)
    (extraAnchor : Option Certificate) (intermediates : List Bytes)
    (σ : SysState) : VerifyOptions :=
  { roots := σ.systemStore ++ extraAnchor.toList,
    intermediates := intermediates.flatMap appendPEM,
    currentTime := now }

/-- `describeTrusted` (lines 315-331 of the source), with the shared system
store passed in and returned explicitly.  `x509.SystemCertPool` either fails
(`storeErr = some e`) or returns a private copy of the shared store; in both
cases the shared store itself is left as it was.  `verify` is the injected
`x509.Certificate.Verify`. -/
def describeTrusted (storeErr : Option String)
    (appendPEM : Bytes → List Certificate)
    (verify : Certificate → VerifyOptions → Except String Unit) (now : Nat)
    (cert : Certificate) (intermediates : List Bytes)
    (σ : SysState) : TrustStatus × SysState :=
  match storeErr with
  | some e => (.storeError e, σ)
  | none =>
    match verify cert (trustedPoolUsed appendPEM now intermediates σ) with
    | .ok _ => (.yes, σ)
    | .error e => (.no e, σ)

/-- The three debugging results, in the order `describeDebugging` formats
them. -/
structure DebugReport where
  trusted : TrustStatus
  crl : CRLStatus
  ocsp : OCSPStatus
deriving DecidableEq, Repr

/-- `describeDebugging` (lines 251-257 of the source): invokes the three
checkers.  Note that only `intermediates` reaches `describeTrusted`; the CA
bytes are passed to `describeOCSP` alone. -/
def describeDebugging (storeErr : Option String)
    (appendPEM : Bytes → List Certificate)
    (verify : Certificate → VerifyOptions → Except String Unit) (now : Nat)
    (parse : String → Option GoURL)
    (check : Certificate → String → Except String Bool)
    (decode : Bytes → Except String Certificate)
    (ocspCheck : Certificate → Certificate → Except String Bool)
    (cert : Certificate) (intermediates : List Bytes) (ca : Bytes)
    (σ : SysState) : DebugReport × SysState :=
  let t := describeTrusted storeErr appendPEM verify now cert intermediates σ
  (⟨t.1,
    describeCRL parse check cert,
    (describeOCSP decode ocspCheck cert intermediates ca).status⟩,
   t.2)

/-! Concrete instantiations of the injected collaborators, used to evaluate
the theorems on closed inputs. -/

/-- Equality on `Except` values is decidable; used to evaluate closed
statements about injected collaborators. -/
instance {ε α : Type} [DecidableEq ε] [DecidableEq α] : DecidableEq (Except ε α) :=
  fun a b =>
    match a, b with
    | .error e, .error f =>
      if h : e = f then isTrue (by rw [h])
      else isFalse (by intro hc; cases hc; exact h rfl)
    | .error _, .ok _ => isFalse (by intro hc; cases hc)
    | .ok _, .error _ => isFalse (by intro hc; cases hc)
    | .ok x, .ok y =>
      if h : x = y then isTrue (by rw [h])
      else isFalse (by intro hc; cases hc; exact h rfl)

/-- Test double: a URL table with two https endpoints, one ldap endpoint, one
ftp endpoint and everything else unparseable. -/
def parseFixed : String → Option GoURL := fun s =>
  if s = "https://good" then some ⟨"https"⟩
  else if s = "https://bad" then some ⟨"https"⟩
  else if s = "https://revoked" then some ⟨"https"⟩
  else if s = "ldap://dir" then some ⟨"ldap"⟩
  else if s = "ftp://skip" then some ⟨"ftp"⟩
  else none

/-- Test double: the CRL at `https://bad` fails to fetch, the one at
`https://revoked` lists the leaf serial, every other endpoint is clean. -/
def checkFixed : Certificate → String → Except String Bool := fun _ s =>
  if s = "https://bad" then .error "boom"
  else if s = "https://revoked" then .ok false
  else .ok true

/-- Test double: decode every byte slice into a certificate. -/
def decodeOk : Bytes → Except String Certificate := fun b => .ok ⟨b.length, [], true⟩

/-- Test double: certificate decoding always fails. -/
def decodeBad : Bytes → Except String Certificate := fun _ => .error "bad"

/-- Test double: the OCSP responder always answers good. -/
def ocspGood : Certificate → Certificate → Except String Bool := fun _ _ => .ok true

/-- Test double: a leaf with no CRL distribution points. -/
def certNoDP : Certificate := ⟨1, [], false⟩

/-- Test double: a leaf whose only distribution point has an unsupported
scheme. -/
def certFtp : Certificate := ⟨2, ["ftp://skip"], false⟩

/-- Test double: a leaf whose distribution points hit a fetch failure after a
clean endpoint. -/
def certErr : Certificate := ⟨3, ["ftp://skip", "https://good", "https://bad", "https://revoked"], false⟩

/-- Test double: a leaf that is revoked at its second supported endpoint. -/
def certRev : Certificate := ⟨4, ["https://good", "https://revoked", "https://bad"], false⟩

/-- Test double: a leaf whose supported endpoints are all clean. -/
def certOk : Certificate := ⟨5, ["ftp://skip", "https://good", "ldap://dir"], false⟩

/-- Test double: verification succeeds exactly when the untrusted-helper pool
is nonempty, to separate the two pool constructions. -/
def verifyHelperSensitive : Certificate → VerifyOptions → Except String Unit :=
  fun _ opts => if opts.intermediates.isEmpty then .error "x" else .ok ()

/-- Test double: each byte slice parses to one PEM certificate. -/
def appendOne : Bytes → List Certificate := fun b => [⟨b.length, [], true⟩]

/-- Test double: a CA certificate supplied as an extra trust anchor. -/
def caAnchor : Certificate := ⟨9, [], true⟩

section CRLLemmas

variable (parse : String → Option GoURL)
variable (check : Certificate → String → Except String Bool)
variable (cert : Certificate)

lemma describeCRLLoop_cons_unsupported {u : String}
    (h : crlSupported parse u = false) (rest : List String) (b : Bool) :
    describeCRLLoop parse check cert (u :: rest) b =
      describeCRLLoop parse check cert rest b := by
  unfold crlSupported at h
  cases hp : parse u with
  | none => simp [describeCRLLoop, hp]
  | some pu =>
    rw [hp] at h
    simp only [Bool.or_eq_false_iff] at h
    simp [describeCRLLoop, hp, bne, h.1, h.2]

lemma describeCRLLoop_cons_supported {u : String}
    (h : crlSupported parse u = true) (rest : List String) (b : Bool) :
    describeCRLLoop parse check cert (u :: rest) b =
      match check cert u with
      | .error e => (.cannotCheck e, [u])
      | .ok valid =>
        if !valid then (.revokedBy u, [u])
        else
          let r := describeCRLLoop parse check cert rest true
          (r.1, u :: r.2) := by
  unfold crlSupported at h
  cases hp : parse u with
  | none => rw [hp] at h; exact absurd h (by simp)
  | some pu =>
    rw [hp] at h
    have hbne : (pu.scheme != "ldap" && pu.scheme != "https") = false := by
      rcases Bool.or_eq_true_iff.mp h with h1 | h1 <;> simp [bne, h1]
    simp [describeCRLLoop, hp, hbne]

/-- When every supported URL fetches cleanly with the serial absent, the loop
scans all of them and ends `valid` (or `noSupported` if there were none). -/
lemma describeCRLLoop_all_ok (dps : List String) (b : Bool)
    (h : ∀ u ∈ dps, crlSupported parse u = true → check cert u = .ok true) :
    describeCRLLoop parse check cert dps b =
      (if b || !(dps.filter (crlSupported parse)).isEmpty then .valid
       else .noSupported,
       dps.filter (crlSupported parse)) := by
  induction dps generalizing b with
  | nil => cases b <;> simp [describeCRLLoop]
  | cons u rest ih =>
    cases hs : crlSupported parse u with
    | false =>
      rw [describeCRLLoop_cons_unsupported parse check cert hs,
        ih b (fun v hv => h v (List.mem_cons_of_mem u hv))]
      simp [List.filter_cons, hs]
    | true =>
      have hstep : describeCRLLoop parse check cert (u :: rest) b =
          ((describeCRLLoop parse check cert rest true).1,
           u :: (describeCRLLoop parse check cert rest true).2) := by
        rw [describeCRLLoop_cons_supported parse check cert hs,
          h u (List.mem_cons_self u rest) hs]
        rfl
      rw [hstep, ih true (fun v hv => h v (List.mem_cons_of_mem u hv))]
      simp [List.filter_cons, hs]

/-- When the supported URLs split as `a ++ u :: t` with every URL of `a`
fetching cleanly and `u` definitive (error or revoked), the loop stops at `u`
having fetched exactly `a ++ [u]`. -/
lemma describeCRLLoop_first_bad (dps : List String) (b : Bool)
    (a : List String) (u : String) (t : List String)
    (hsplit : dps.filter (crlSupported parse) = a ++ u :: t)
    (hok : ∀ v ∈ a, check cert v = .ok true) :
    (∀ e, check cert u = .error e →
      describeCRLLoop parse check cert dps b = (.cannotCheck e, a ++ [u])) ∧
    (check cert u = .ok false →
      describeCRLLoop parse check cert dps b = (.revokedBy u, a ++ [u])) := by
  induction dps generalizing b a with
  | nil => simp at hsplit
  | cons w rest ih =>
    cases hs : crlSupported parse w with
    | false =>
      rw [List.filter_cons_of_neg (by simp [hs])] at hsplit
      have h2 := ih b a hsplit hok
      rw [describeCRLLoop_cons_unsupported parse check cert hs]
      exact h2
    | true =>
      rw [List.filter_cons_of_pos (by simp [hs])] at hsplit
      cases a with
      | nil =>
        simp only [List.nil_append] at hsplit ⊢
        have hw : w = u := (List.cons_eq_cons.mp hsplit).1
        subst hw
        rw [describeCRLLoop_cons_supported parse check cert hs]
        constructor
        · intro e he; rw [he]
        · intro he; rw [he]; simp
      | cons w' a' =>
        have hw : w = w' ∧ rest.filter (crlSupported parse) = a' ++ u :: t := by
          have := List.cons_eq_cons.mp (by simpa using hsplit)
          exact ⟨this.1, this.2⟩
        have hwok : check cert w = .ok true := by
          rw [hw.1]; exact hok w' (List.mem_cons_self w' a')
        have ih2 := ih true a' hw.2
          (fun v hv => hok v (List.mem_cons_of_mem w' hv))
        have hstep : describeCRLLoop parse check cert (w :: rest) b =
            ((describeCRLLoop parse check cert rest true).1,
             w :: (describeCRLLoop parse check cert rest true).2) := by
          rw [describeCRLLoop_cons_supported parse check cert hs, hwok]
          rfl
        constructor
        · intro e he
          rw [hstep, ih2.1 e he, hw.1]
          rfl
        · intro he
          rw [hstep, ih2.2 he, hw.1]
          rfl

/-- Every URL the loop fetches from is supported. -/
lemma describeCRLLoop_fetches_supported (dps : List String) (b : Bool) :
    ∀ w ∈ (describeCRLLoop parse check cert dps b).2,
      crlSupported parse w = true := by
  induction dps generalizing b with
  | nil => simp [describeCRLLoop]
  | cons u rest ih =>
    cases hs : crlSupported parse u with
    | false =>
      rw [describeCRLLoop_cons_unsupported parse check cert hs]
      exact ih b
    | true =>
      cases hc : check cert u with
      | error e =>
        rw [describeCRLLoop_cons_supported parse check cert hs, hc]
        simpa using hs
      | ok valid =>
        cases valid with
        | false =>
          rw [describeCRLLoop_cons_supported parse check cert hs, hc]
          simpa using hs
        | true =>
          have hstep : describeCRLLoop parse check cert (u :: rest) b =
              ((describeCRLLoop parse check cert rest true).1,
               u :: (describeCRLLoop parse check cert rest true).2) := by
            rw [describeCRLLoop_cons_supported parse check cert hs, hc]
            rfl
          rw [hstep]
          intro w hw
          rcases List.mem_cons.mp hw with h | h
          · rw [h]; exact hs
          · exact ih true w h

/-- Decomposition of a list at the first element violating a predicate. -/
lemma exists_first_violation {α : Type} (p : α → Prop) {l : List α}
    (h : ¬ ∀ x ∈ l, p x) :
    ∃ a u t, l = a ++ u :: t ∧ (∀ v ∈ a, p v) ∧ ¬ p u := by
  induction l with
  | nil => exact absurd (by simp) h
  | cons x xs ih =>
    by_cases hx : p x
    · have h2 : ¬ ∀ y ∈ xs, p y := by
        intro hall
        exact h (fun y hy => by
          rcases List.mem_cons.mp hy with h3 | h3
          · rw [h3]; exact hx
          · exact hall y h3)
      obtain ⟨a, u, t, h4, h5, h6⟩ := ih h2
      refine ⟨x :: a, u, t, by simp [h4], ?_, h6⟩
      intro v hv
      rcases List.mem_cons.mp hv with h7 | h7
      · rw [h7]; exact hx
      · exact h5 v h7
    · exact ⟨[], x, xs, by simp, by simp, hx⟩

/-- With a nonempty distribution-point list, `describeCRL` and `crlFetches`
are the two components of the scan. -/
lemma describeCRL_eq_loop (hne : cert.crlDistributionPoints ≠ []) :
    describeCRL parse check cert =
      (describeCRLLoop parse check cert cert.crlDistributionPoints false).1 ∧
    crlFetches parse check cert =
      (describeCRLLoop parse check cert cert.crlDistributionPoints false).2 := by
  have hlen : ¬ cert.crlDistributionPoints.length < 1 := by
    have := List.length_pos.mpr hne; omega
  exact ⟨by unfold describeCRL; rw [if_neg hlen],
    by unfold crlFetches; rw [if_neg hlen]⟩

/-- A nonempty distribution-point list with no supported URL yields
`noSupported` without any fetch. -/
lemma describeCRL_all_unsupported
    (h : ∀ u ∈ cert.crlDistributionPoints, crlSupported parse u = false)
    (hne : cert.crlDistributionPoints ≠ []) :
    describeCRL parse check cert = .noSupported ∧
    crlFetches parse check cert = [] := by
  have heq := describeCRL_eq_loop parse check cert hne
  have hfil : cert.crlDistributionPoints.filter (crlSupported parse) = [] :=
    List.filter_eq_nil_iff.mpr (fun a ha => by simp [h a ha])
  have hloop := describeCRLLoop_all_ok parse check cert cert.crlDistributionPoints false
    (fun u hu hs => absurd hs (by simp [h u hu]))
  rw [hfil] at hloop
  simp only [List.isEmpty_nil, Bool.not_true, Bool.or_false] at hloop
  exact ⟨by rw [heq.1, hloop]; rfl, by rw [heq.2, hloop]⟩

end CRLLemmas

section OCSPLemmas

/-- The byte slice `describeOCSP` decodes is exactly the issuer candidate. -/
lemma describeOCSP_decodedIssuer (decode : Bytes → Except String Certificate)
    (ocspCheck : Certificate → Certificate → Except String Bool)
    (cert : Certificate) (intermediates : List Bytes) (ca : Bytes) :
    (describeOCSP decode ocspCheck cert intermediates ca).decodedIssuer =
      ocspIssuer intermediates ca := by
  unfold describeOCSP
  cases h : ocspIssuer intermediates ca with
  | none => rfl
  | some issuerBytes =>
    cases hd : decode issuerBytes with
    | error e => simp [hd]
    | ok issuerCert =>
      cases hoc : ocspCheck cert issuerCert with
      | error e => simp [hd, hoc]
      | ok v => simp [hd, hoc]

/-- A CA byte slice of length at most one does not enter the candidate
list. -/
lemma ocspCandidates_of_short {ca : Bytes} (h : ca.length ≤ 1)
    (intermediates : List Bytes) :
    ocspCandidates intermediates ca = intermediates := by
  unfold ocspCandidates
  rw [if_neg (by omega)]

lemma getLast?_cons_of_ne_nil {α : Type} (a : α) {l : List α} (h : l ≠ []) :
    (a :: l).getLast? = l.getLast? := by
  cases l with
  | nil => exact absurd rfl h
  | cons x xs => exact List.getLast?_cons_cons

end OCSPLemmas

section TrustLemmas

/-- `describeTrusted` leaves the shared system store as it found it. -/
lemma describeTrusted_state (storeErr : Option String)
    (appendPEM : Bytes → List Certificate)
    (verify : Certificate → VerifyOptions → Except String Unit) (now : Nat)
    (cert : Certificate) (intermediates : List Bytes) (σ : SysState) :
    (describeTrusted storeErr appendPEM verify now cert intermediates σ).2 = σ := by
  unfold describeTrusted
  cases storeErr with
  | some e => rfl
  | none =>
    cases h : verify cert (trustedPoolUsed appendPEM now intermediates σ) with
    | ok v => rfl
    | error e => rfl

/-- Appending parsed certificates pool-by-pool equals one flat append. -/
lemma foldl_append_eq_flatMap {α β : Type} (f : α → List β) (l : List α)
    (init : List β) :
    l.foldl (fun acc x => acc ++ f x) init = init ++ l.flatMap f := by
  induction l generalizing init with
  | nil => simp
  | cons x xs ih => simp [ih, List.append_assoc]

/-- `describeDebugging` leaves the shared system store as it found it. -/
lemma describeDebugging_state (storeErr : Option String)
    (appendPEM : Bytes → List Certificate)
    (verify : Certificate → VerifyOptions → Except String Unit) (now : Nat)
    (parse : String → Option GoURL)
    (check : Certificate → String → Except String Bool)
    (decode : Bytes → Except String Certificate)
    (ocspCheck : Certificate → Certificate → Except String Bool)
    (cert : Certificate) (intermediates : List Bytes) (ca : Bytes)
    (σ : SysState) :
    (describeDebugging storeErr appendPEM verify now parse check decode ocspCheck
      cert intermediates ca σ).2 = σ := by
  unfold describeDebugging
  exact describeTrusted_state storeErr appendPEM verify now cert intermediates σ

end TrustLemmas

section Claims

/-- Claim C1, counterexample: with CA bytes `[9, 9]` supplied (longer than one
byte, hence counted as present by the code) and one intermediate `[1]`, the
OCSP check decodes the intermediate as issuer, not the supplied CA: the CA is
prepended to the candidate list and the last element is selected. -/
theorem C1_counterexample :
    ([9, 9] : Bytes).length > 1 ∧
    (describeOCSP decodeOk ocspGood certNoDP [[1]] [9, 9]).decodedIssuer = some [1] ∧
    ¬ (describeOCSP decodeOk ocspGood certNoDP [[1]] [9, 9]).decodedIssuer = some [9, 9] := by
  decide

/-- Claim C1 (amended): the OCSP check selects as issuer the last (topmost)
supplied intermediate whenever at least one intermediate is supplied, even
when a CA is supplied; only when no intermediate is supplied does it use the
externally supplied CA, and the CA counts as supplied only when longer than
one byte. -/
theorem C1_ocsp_issuer_is_last_intermediate
    (decode : Bytes → Except String Certificate)
    (ocspCheck : Certificate → Certificate → Except String Bool)
    (cert : Certificate) (intermediates : List Bytes) (ca : Bytes) :
    (intermediates ≠ [] →
      (describeOCSP decode ocspCheck cert intermediates ca).decodedIssuer =
        intermediates.getLast?) ∧
    (intermediates = [] →
      (describeOCSP decode ocspCheck cert intermediates ca).decodedIssuer =
        if ca.length > 1 then some ca else none) := by
  rw [describeOCSP_decodedIssuer]
  constructor
  · intro h
    unfold ocspIssuer ocspCandidates
    by_cases hca : ca.length > 1
    · rw [if_pos hca]
      exact getLast?_cons_of_ne_nil ca h
    · rw [if_neg hca]
  · intro h
    subst h
    unfold ocspIssuer ocspCandidates
    by_cases hca : ca.length > 1
    · rw [if_pos hca, if_pos hca]
      rfl
    · rw [if_neg hca, if_neg hca]
      rfl

/-- Claim C1 (amended), witness: with two intermediates the second is decoded
as issuer despite the supplied CA `[9, 9]`; with no intermediates the
two-byte-test on the CA decides. -/
theorem C1_ocsp_issuer_is_last_intermediate_witness :
    (describeOCSP decodeOk ocspGood certNoDP [[1], [2]] [9, 9]).decodedIssuer =
      [[1], [2]].getLast? ∧
    (describeOCSP decodeOk ocspGood certNoDP [] [7]).decodedIssuer =
      (if ([7] : Bytes).length > 1 then some [7] else none) :=
  ⟨(C1_ocsp_issuer_is_last_intermediate decodeOk ocspGood certNoDP [[1], [2]] [9, 9]).1
      (by decide),
   (C1_ocsp_issuer_is_last_intermediate decodeOk ocspGood certNoDP [] [7]).2 rfl⟩

/-- Claim C2, counterexample: a verifier that succeeds exactly when the
untrusted-helper pool is nonempty rejects under the pool the code builds
(intermediates are appended to the trusted roots, helpers stay empty, the CA
never reaches trust evaluation), yet accepts under the pool the spec
describes; the two pools differ on the same input. -/
theorem C2_counterexample :
    (describeTrusted none appendOne verifyHelperSensitive 0 certNoDP [[1]] ⟨[]⟩).1 =
      .no "x" ∧
    verifyHelperSensitive certNoDP
      (specVerificationPool appendOne 0 (some caAnchor) [[1]] ⟨[]⟩) = .ok () ∧
    trustedPoolUsed appendOne 0 [[1]] ⟨[]⟩ ≠
      specVerificationPool appendOne 0 (some caAnchor) [[1]] ⟨[]⟩ := by
  exact ⟨rfl, rfl, by decide⟩

/-- Claim C2 (amended): the trust verdict is computed against a verification
pool consisting of the private copy of the system trust store with the
supplied intermediates appended as additional trusted roots; the supplied CA
is not part of the pool and no certificates are provided as untrusted
helpers. -/
theorem C2_trust_pool_construction (appendPEM : Bytes → List Certificate)
    (verify : Certificate → VerifyOptions → Except String Unit) (now : Nat)
    (cert : Certificate) (intermediates : List Bytes) (σ : SysState) :
    describeTrusted none appendPEM verify now cert intermediates σ =
      (match verify cert (trustedPoolUsed appendPEM now intermediates σ) with
       | .ok _ => TrustStatus.yes
       | .error e => TrustStatus.no e, σ) ∧
    trustedPoolUsed appendPEM now intermediates σ =
      { roots := σ.systemStore ++ intermediates.flatMap appendPEM,
        intermediates := [],
        currentTime := now } := by
  constructor
  · cases h : verify cert (trustedPoolUsed appendPEM now intermediates σ) with
    | ok v => simp [describeTrusted, h]
    | error e => simp [describeTrusted, h]
  · unfold trustedPoolUsed
    rw [foldl_append_eq_flatMap]

/-- Claim C3: the CRL check returns one of its two not-applicable outcomes
exactly when the distribution-point set is empty or no supplied URL parses
with a supported scheme, and in both situations no CRL fetch is performed. -/
theorem C3_crl_not_applicable_characterization (parse : String → Option GoURL)
    (check : Certificate → String → Except String Bool) (cert : Certificate) :
    ((describeCRL parse check cert = .noEndpoints ∨
      describeCRL parse check cert = .noSupported) ↔
     (cert.crlDistributionPoints = [] ∨
      ∀ u ∈ cert.crlDistributionPoints, crlSupported parse u = false)) ∧
    ((cert.crlDistributionPoints = [] ∨
      ∀ u ∈ cert.crlDistributionPoints, crlSupported parse u = false) →
     crlFetches parse check cert = []) := by
  constructor
  · constructor
    · intro hres
      by_contra hnot
      push_neg at hnot
      obtain ⟨hne, hex⟩ := hnot
      obtain ⟨u0, hu0, hs0n⟩ := hex
      have hs0 : crlSupported parse u0 = true := by
        cases h : crlSupported parse u0 with
        | true => rfl
        | false => exact absurd h hs0n
      have hfilne : cert.crlDistributionPoints.filter (crlSupported parse) ≠ [] :=
        List.ne_nil_of_mem (List.mem_filter.mpr ⟨hu0, hs0⟩)
      have heq := describeCRL_eq_loop parse check cert hne
      by_cases hall : ∀ v ∈ cert.crlDistributionPoints.filter (crlSupported parse),
          check cert v = .ok true
      · have hloop := describeCRLLoop_all_ok parse check cert
          cert.crlDistributionPoints false
          (fun v hv hs => hall v (List.mem_filter.mpr ⟨hv, hs⟩))
        have hie : (cert.crlDistributionPoints.filter (crlSupported parse)).isEmpty = false := by
          cases hie2 : (cert.crlDistributionPoints.filter (crlSupported parse)).isEmpty with
          | false => rfl
          | true => exact absurd (List.isEmpty_iff.mp hie2) hfilne
        have hval : describeCRL parse check cert = .valid := by
          rw [heq.1, hloop, hie]
          rfl
        rcases hres with h | h <;> rw [hval] at h <;> simp at h
      · obtain ⟨a, u, t, h4, h5, h6⟩ := exists_first_violation
          (fun v => check cert v = .ok true) hall
        have hfb := describeCRLLoop_first_bad parse check cert
          cert.crlDistributionPoints false a u t h4 h5
        cases hc : check cert u with
        | error e =>
          have hv : describeCRL parse check cert = .cannotCheck e := by
            rw [heq.1, hfb.1 e hc]
          rcases hres with h | h <;> rw [hv] at h <;> simp at h
        | ok v =>
          cases v with
          | true => exact h6 hc
          | false =>
            have hv : describeCRL parse check cert = .revokedBy u := by
              rw [heq.1, hfb.2 hc]
            rcases hres with h | h <;> rw [hv] at h <;> simp at h
    · intro h
      rcases h with h | h
      · left
        simp [describeCRL, h]
      · by_cases hne : cert.crlDistributionPoints = []
        · left
          simp [describeCRL, hne]
        · right
          exact (describeCRL_all_unsupported parse check cert h hne).1
  · intro h
    rcases h with h | h
    · simp [crlFetches, h]
    · by_cases hne : cert.crlDistributionPoints = []
      · simp [crlFetches, hne]
      · exact (describeCRL_all_unsupported parse check cert h hne).2

/-- Claim C3, witness: a leaf whose only distribution point uses the `ftp`
scheme gets a not-applicable result and no fetch. -/
theorem C3_crl_not_applicable_characterization_witness :
    (describeCRL parseFixed checkFixed certFtp = .noEndpoints ∨
     describeCRL parseFixed checkFixed certFtp = .noSupported) ∧
    crlFetches parseFixed checkFixed certFtp = [] :=
  ⟨(C3_crl_not_applicable_characterization parseFixed checkFixed certFtp).1.mpr
      (Or.inr (by decide)),
   (C3_crl_not_applicable_characterization parseFixed checkFixed certFtp).2
      (Or.inr (by decide))⟩

/-- Claim C4: when the scan reaches a supported URL whose fetch or parse
fails (all earlier supported URLs having checked clean), the CRL check
returns the error result for that URL at once, fetches nothing after it, and
does not report `Valid`. -/
theorem C4_crl_error_short_circuit (parse : String → Option GoURL)
    (check : Certificate → String → Except String Bool) (cert : Certificate)
    (a : List String) (u : String) (t : List String) (e : String)
    (hsplit : cert.crlDistributionPoints.filter (crlSupported parse) = a ++ u :: t)
    (hok : ∀ v ∈ a, check cert v = .ok true)
    (herr : check cert u = .error e) :
    describeCRL parse check cert = .cannotCheck e ∧
    crlFetches parse check cert = a ++ [u] ∧
    describeCRL parse check cert ≠ .valid := by
  have hne : cert.crlDistributionPoints ≠ [] := by
    intro h0
    rw [h0] at hsplit
    simp at hsplit
  have heq := describeCRL_eq_loop parse check cert hne
  have hfb := describeCRLLoop_first_bad parse check cert
    cert.crlDistributionPoints false a u t hsplit hok
  refine ⟨?_, ?_, ?_⟩
  · rw [heq.1, hfb.1 e herr]
  · rw [heq.2, hfb.1 e herr]
  · rw [heq.1, hfb.1 e herr]
    simp

/-- Claim C4, witness: the leaf with endpoints
`[ftp://skip, https://good, https://bad, https://revoked]` errors at
`https://bad` after a clean check of `https://good`, fetching nothing
further. -/
theorem C4_crl_error_short_circuit_witness :
    describeCRL parseFixed checkFixed certErr = .cannotCheck "boom" ∧
    crlFetches parseFixed checkFixed certErr = ["https://good", "https://bad"] ∧
    describeCRL parseFixed checkFixed certErr ≠ .valid :=
  C4_crl_error_short_circuit parseFixed checkFixed certErr
    ["https://good"] "https://bad" ["https://revoked"] "boom"
    (by decide) (by decide) (by decide)

/-- Claim C5: the CRL scan visits supported URLs in the order supplied; the
first one whose CRL lists the leaf serial yields `Revoked` naming that URL,
the first fetch or parse error yields the error result, and when every
supported URL checks clean the result is `Valid` with every supported URL
fetched. -/
theorem C5_crl_scan_order_and_outcomes (parse : String → Option GoURL)
    (check : Certificate → String → Except String Bool) (cert : Certificate) :
    (∀ a u t, cert.crlDistributionPoints.filter (crlSupported parse) = a ++ u :: t →
      (∀ v ∈ a, check cert v = .ok true) → check cert u = .ok false →
      describeCRL parse check cert = .revokedBy u ∧
      crlFetches parse check cert = a ++ [u]) ∧
    (∀ a u t e, cert.crlDistributionPoints.filter (crlSupported parse) = a ++ u :: t →
      (∀ v ∈ a, check cert v = .ok true) → check cert u = .error e →
      describeCRL parse check cert = .cannotCheck e) ∧
    (cert.crlDistributionPoints.filter (crlSupported parse) ≠ [] →
      (∀ v ∈ cert.crlDistributionPoints.filter (crlSupported parse),
        check cert v = .ok true) →
      describeCRL parse check cert = .valid ∧
      crlFetches parse check cert =
        cert.crlDistributionPoints.filter (crlSupported parse)) := by
  refine ⟨?_, ?_, ?_⟩
  · intro a u t hsplit hok hrev
    have hne : cert.crlDistributionPoints ≠ [] := by
      intro h0
      rw [h0] at hsplit
      simp at hsplit
    have heq := describeCRL_eq_loop parse check cert hne
    have hfb := describeCRLLoop_first_bad parse check cert
      cert.crlDistributionPoints false a u t hsplit hok
    exact ⟨by rw [heq.1, hfb.2 hrev], by rw [heq.2, hfb.2 hrev]⟩
  · intro a u t e hsplit hok herr
    have hne : cert.crlDistributionPoints ≠ [] := by
      intro h0
      rw [h0] at hsplit
      simp at hsplit
    have heq := describeCRL_eq_loop parse check cert hne
    have hfb := describeCRLLoop_first_bad parse check cert
      cert.crlDistributionPoints false a u t hsplit hok
    rw [heq.1, hfb.1 e herr]
  · intro hfilne hall
    have hne : cert.crlDistributionPoints ≠ [] := by
      intro h0
      rw [h0] at hfilne
      simp at hfilne
    have heq := describeCRL_eq_loop parse check cert hne
    have hloop := describeCRLLoop_all_ok parse check cert
      cert.crlDistributionPoints false
      (fun v hv hs => hall v (List.mem_filter.mpr ⟨hv, hs⟩))
    have hie : (cert.crlDistributionPoints.filter (crlSupported parse)).isEmpty = false := by
      cases hie2 : (cert.crlDistributionPoints.filter (crlSupported parse)).isEmpty with
      | false => rfl
      | true => exact absurd (List.isEmpty_iff.mp hie2) hfilne
    exact ⟨by rw [heq.1, hloop, hie]; rfl, by rw [heq.2, hloop]⟩

/-- Claim C5, witness: a leaf revoked at its second supported endpoint stops
there, and a leaf whose supported endpoints are clean ends `Valid` having
fetched them all in order. -/
theorem C5_crl_scan_order_and_outcomes_witness :
    (describeCRL parseFixed checkFixed certRev = .revokedBy "https://revoked" ∧
     crlFetches parseFixed checkFixed certRev = ["https://good", "https://revoked"]) ∧
    (describeCRL parseFixed checkFixed certOk = .valid ∧
     crlFetches parseFixed checkFixed certOk = ["https://good", "ldap://dir"]) :=
  ⟨(C5_crl_scan_order_and_outcomes parseFixed checkFixed certRev).1
      ["https://good"] "https://revoked" ["https://bad"]
      (by decide) (by decide) (by decide),
   (C5_crl_scan_order_and_outcomes parseFixed checkFixed certOk).2.2
      (by decide) (by decide)⟩

/-- Claim C6: URLs that fail to parse or use a scheme other than `https` or
`ldap` are never fetched (every fetched URL is supported), and when the
distribution-point set is nonempty but contains only unsupported URLs the
result is the not-applicable outcome with no fetch at all. -/
theorem C6_crl_unsupported_skipped (parse : String → Option GoURL)
    (check : Certificate → String → Except String Bool) (cert : Certificate) :
    (∀ w ∈ crlFetches parse check cert, crlSupported parse w = true) ∧
    ((cert.crlDistributionPoints ≠ [] ∧
      ∀ u ∈ cert.crlDistributionPoints, crlSupported parse u = false) →
     describeCRL parse check cert = .noSupported ∧
     crlFetches parse check cert = []) := by
  constructor
  · intro w hw
    unfold crlFetches at hw
    by_cases hlen : cert.crlDistributionPoints.length < 1
    · rw [if_pos hlen] at hw
      simp at hw
    · rw [if_neg hlen] at hw
      exact describeCRLLoop_fetches_supported parse check cert
        cert.crlDistributionPoints false w hw
  · rintro ⟨hne, hall⟩
    exact describeCRL_all_unsupported parse check cert hall hne

/-- Claim C6, witness: the `ftp`-only leaf yields the not-applicable result
and an empty fetch list. -/
theorem C6_crl_unsupported_skipped_witness :
    describeCRL parseFixed checkFixed certFtp = .noSupported ∧
    crlFetches parseFixed checkFixed certFtp = [] :=
  (C6_crl_unsupported_skipped parseFixed checkFixed certFtp).2
    ⟨by decide, by decide⟩

/-- Claim C7: with neither CA bytes nor intermediates supplied the OCSP check
returns the no-issuer result, and when the selected issuer bytes fail to
decode it returns the cannot-parse result without performing the OCSP
exchange. -/
theorem C7_ocsp_no_issuer_and_unparseable
    (decode : Bytes → Except String Certificate)
    (ocspCheck : Certificate → Certificate → Except String Bool)
    (cert : Certificate) (intermediates : List Bytes) (ca issuerBytes : Bytes)
    (e : String) :
    ((ca = [] ∧ intermediates = []) →
      describeOCSP decode ocspCheck cert intermediates ca = ⟨.noIssuer, none, false⟩) ∧
    ((ocspIssuer intermediates ca = some issuerBytes ∧
      decode issuerBytes = .error e) →
      describeOCSP decode ocspCheck cert intermediates ca =
        ⟨.cannotParseIssuer e, some issuerBytes, false⟩) := by
  constructor
  · rintro ⟨h1, h2⟩
    subst h1
    subst h2
    rfl
  · rintro ⟨h1, h2⟩
    simp [describeOCSP, h1, h2]

/-- Claim C7, witness: empty CA and intermediates give the no-issuer result;
one undecodable intermediate gives the cannot-parse result with no
exchange. -/
theorem C7_ocsp_no_issuer_and_unparseable_witness :
    describeOCSP decodeBad ocspGood certNoDP [] [] = ⟨.noIssuer, none, false⟩ ∧
    describeOCSP decodeBad ocspGood certNoDP [[1]] [] =
      ⟨.cannotParseIssuer "bad", some [1], false⟩ :=
  ⟨(C7_ocsp_no_issuer_and_unparseable decodeBad ocspGood certNoDP [] [] [1] "bad").1
      ⟨rfl, rfl⟩,
   (C7_ocsp_no_issuer_and_unparseable decodeBad ocspGood certNoDP [[1]] [] [1] "bad").2
      ⟨by decide, rfl⟩⟩

/-- Claim C8: the trust evaluation operates on a private copy of the platform
trust store; the shared system store is unchanged after the verdict, whatever
intermediates are appended to the pool. -/
theorem C8_system_store_unchanged (storeErr : Option String)
    (appendPEM : Bytes → List Certificate)
    (verify : Certificate → VerifyOptions → Except String Unit) (now : Nat)
    (cert : Certificate) (intermediates : List Bytes) (σ : SysState) :
    (describeTrusted storeErr appendPEM verify now cert intermediates σ).2 = σ :=
  describeTrusted_state storeErr appendPEM verify now cert intermediates σ

/-- Claim C9: with the clock and the transports fixed, running the three
checkers twice in a row (threading the shared system store through) yields
identical reports, and the store is as it started: the checkers carry no
state across invocations. -/
theorem C9_checkers_stateless (storeErr : Option String)
    (appendPEM : Bytes → List Certificate)
    (verify : Certificate → VerifyOptions → Except String Unit) (now : Nat)
    (parse : String → Option GoURL)
    (check : Certificate → String → Except String Bool)
    (decode : Bytes → Except String Certificate)
    (ocspCheck : Certificate → Certificate → Except String Bool)
    (cert : Certificate) (intermediates : List Bytes) (ca : Bytes)
    (σ : SysState) :
    (describeDebugging storeErr appendPEM verify now parse check decode ocspCheck
      cert intermediates ca σ).1 =
      (describeDebugging storeErr appendPEM verify now parse check decode ocspCheck
        cert intermediates ca
        ((describeDebugging storeErr appendPEM verify now parse check decode ocspCheck
          cert intermediates ca σ).2)).1 ∧
    (describeDebugging storeErr appendPEM verify now parse check decode ocspCheck
      cert intermediates ca σ).2 = σ := by
  have h := describeDebugging_state storeErr appendPEM verify now parse check decode
    ocspCheck cert intermediates ca σ
  exact ⟨by rw [h], h⟩

/-- Claim C10: a supplied CA byte slice of length zero or one is treated as
absent by the OCSP check — the result is the same as with no CA at all — and
with no intermediates the outcome is the no-issuer result, the short CA never
being submitted to certificate decoding. -/
theorem C10_short_ca_treated_absent (decode : Bytes → Except String Certificate)
    (ocspCheck : Certificate → Certificate → Except String Bool)
    (cert : Certificate) (intermediates : List Bytes) (ca : Bytes)
    (h : ca.length ≤ 1) :
    describeOCSP decode ocspCheck cert intermediates ca =
      describeOCSP decode ocspCheck cert intermediates [] ∧
    (intermediates = [] →
      describeOCSP decode ocspCheck cert intermediates ca =
        ⟨.noIssuer, none, false⟩) := by
  have hc : ocspCandidates intermediates ca = intermediates :=
    ocspCandidates_of_short h intermediates
  have hc0 : ocspCandidates intermediates [] = intermediates :=
    ocspCandidates_of_short (by simp) intermediates
  constructor
  · unfold describeOCSP ocspIssuer
    rw [hc, hc0]
  · intro h2
    subst h2
    unfold describeOCSP ocspIssuer
    rw [hc]
    rfl

/-- Claim C10, witness: a one-byte CA with no intermediates yields the
no-issuer result with nothing decoded. -/
theorem C10_short_ca_treated_absent_witness :
    describeOCSP decodeOk ocspGood certNoDP [] [7] = ⟨.noIssuer, none, false⟩ :=
  (C10_short_ca_treated_absent decodeOk ocspGood certNoDP [] [7] (by decide)).2 rfl

end Claims

end InspectSecret
